import Mathlib

/-!
Shallow embedding of the bucket-sync handler (`src/handler.py`) of the
`dolr-ai/runpod-deployment` repository.

The Python code is a single-pass, effectful routine.  We model it by explicit
state passing: a `St` record carries the local filesystem (a map from path
strings to file contents), the process environment, and a trace of the
external effects performed (directory creation, file writes, network calls,
unlink calls, subprocess invocations).  A `World` record is the oracle for
everything outside the process: the name chosen for the temporary credential
file, the outcome of constructing the storage client, of listing the bucket,
of fetching each object, of deleting a file, and of running the GPU
subprocesses.  Python exceptions are modelled with `Except`.

Strings stand for byte sequences; "byte-for-byte identical" becomes equality
of strings.  All path arithmetic (`pathlib.Path.__truediv__`, `.parent`,
`str(...)`) is implemented over the character list of the string, following
POSIX `pathlib` semantics: empty and `"."` components are dropped, and
joining with an absolute second operand discards the left operand.
-/

/-- Pointwise update of a string-keyed partial map. -/
def setKey (f : String → Option String) (k : String) (v : Option String) :
    String → Option String :=
  fun x => if x = k then v else f x

/-- Split a character list at every occurrence of `c` (Python `str.split(c)`). -/
def splitChar (c : Char) : List Char → List (List Char)
  | [] => [[]]
  | x :: xs =>
    let r := splitChar c xs
    if x = c then [] :: r
    else
      match r with
      | [] => [[x]]
      | y :: ys => (x :: y) :: ys

/-- Split a string at every occurrence of the character `c`. -/
def splitOnChar (c : Char) (s : String) : List String :=
  (splitChar c s.data).map String.mk

/-- Python `s.endswith('/')`. -/
def endsWithSlash (s : String) : Bool :=
  s.data.getLast? == some '/'

/-- Whether a path string is absolute in the POSIX sense (starts with `/`). -/
def startsWithSlash (s : String) : Bool :=
  match s.data with
  | [] => false
  | c :: _ => c == '/'

/-- The components of a path as `pathlib` keeps them: split on `/`, dropping
empty components and `"."` components (`".."` components are kept). -/
def normParts (s : String) : List String :=
  (splitOnChar '/' s).filter (fun p => p != "" && p != ".")

/-- Render an absolute path from its components (`str` of a `pathlib` path
rooted at `/`). -/
def renderAbs : List String → String
  | [] => "/"
  | p :: ps => (p :: ps).foldl (fun acc q => acc ++ "/" ++ q) ""

/-- `models_dir = Path("/runpod-volume/models")` of `handler.py` line 31. -/
def modelsDir : String := "/runpod-volume/models"

/-- The path the spec assigns to a remote key: `destination_root/K`
(`pathlib` join of the fixed destination root with the key, for relative
keys). -/
def destJoin (key : String) : String :=
  renderAbs (normParts modelsDir ++ normParts key)

/-- `str(models_dir / blob.name)` — `pathlib.Path.__truediv__`: an absolute
right operand discards the left operand. -/
def localPathOf (key : String) : String :=
  if startsWithSlash key then renderAbs (normParts key) else destJoin key

/-- `str(p.parent)` for an absolute path `p`. -/
def parentPath (p : String) : String :=
  renderAbs ((normParts p).dropLast)

/-- One observable effect of the handler process on its surroundings. -/
inductive Event where
  | mkdir (path : String)
  | writeFile (path : String)
  | clientInit
  | netListBlobs (bucket : String)
  | netFetch (bucket : String) (key : String)
  | unlink (path : String)
  | subprocess (cmd : List String)
deriving DecidableEq

/-- Process-local state: the local filesystem (path to contents), the
process environment, and the trace of effects performed so far. -/
structure St where
  fs : String → Option String
  env : String → Option String
  events : List Event

/-- Oracle for everything outside the process: the fresh temporary file name,
and the outcome of each external operation.  `Except.error` models the
corresponding Python call raising an exception carrying `str(e)`. -/
structure World where
  tmpName : String
  clientInit : Except String Unit
  listBlobs : String → Except String (List String)
  fetch : String → String → Except String String
  unlinkOk : Bool
  unlinkMsg : String
  smi : Except (String × String) String
  gpuQuery : Except (String × String) String
  nvcc : Except String String

/-- The dictionary returned by `download_models_from_gcs`: either
`{"status": "success", "message": ..., "downloaded_files": ...,
"models_directory": ...}` or `{"status": "error", "error": ...}`. -/
inductive SyncResult where
  | success (message : String) (downloadedFiles : List String)
      (modelsDirectory : String)
  | error (error : String)
deriving DecidableEq

/-- The `except Exception` block of `download_models_from_gcs`
(lines 78–89): best-effort unlink of the credentials file (failure
swallowed), then an error result wrapping the original message. -/
def handleException (w : World) (s : St) (m : String) : SyncResult × St :=
  let s := { s with events := s.events ++ [Event.unlink w.tmpName] }
  let s := if w.unlinkOk then { s with fs := setKey s.fs w.tmpName none } else s
  (SyncResult.error ("Failed to download models: " ++ m), s)

/-- The `for blob in blobs` loop (lines 53–66): skip directory placeholders,
create parent directories, fetch each object to its mirrored local path,
and accumulate the written paths; a fetch failure raises. -/
def downloadLoop (w : World) (b : String) :
    List String → List String → St → Except (String × St) (List String × St)
  | [], acc, s => Except.ok (acc, s)
  | k :: ks, acc, s =>
    if endsWithSlash k then downloadLoop w b ks acc s
    else
      let lp := localPathOf k
      let s := { s with events := s.events ++ [Event.mkdir (parentPath lp)] }
      let s := { s with events := s.events ++ [Event.netFetch b k] }
      match w.fetch b k with
      | Except.ok c =>
        let s := { s with fs := setKey s.fs lp (some c),
                          events := s.events ++ [Event.writeFile lp] }
        downloadLoop w b ks (acc ++ [lp]) s
      | Except.error m => Except.error (m, s)

/-- `download_models_from_gcs` (lines 15–89). -/
def downloadModelsFromGcs (w : World) (s : St) : SyncResult × St :=
  let gcpCredentials := s.env "GCP_CREDENTIALS"
  let bucketName := (s.env "GCS_BUCKET").getD "talking-head-models"
  match gcpCredentials with
  | none => (SyncResult.error "GCP_CREDENTIALS environment variable not set", s)
  | some creds =>
    if creds = "" then
      (SyncResult.error "GCP_CREDENTIALS environment variable not set", s)
    else
      let s := { s with events := s.events ++ [Event.mkdir modelsDir] }
      let credentialsPath := w.tmpName
      let s := { s with fs := setKey s.fs credentialsPath (some creds),
                        events := s.events ++ [Event.writeFile credentialsPath] }
      let s := { s with env := setKey s.env "GOOGLE_APPLICATION_CREDENTIALS"
                          (some credentialsPath) }
      let s := { s with events := s.events ++ [Event.clientInit] }
      match w.clientInit with
      | Except.error m => handleException w s m
      | Except.ok _ =>
        let s := { s with events := s.events ++ [Event.netListBlobs bucketName] }
        match w.listBlobs bucketName with
        | Except.error m => handleException w s m
        | Except.ok blobs =>
          match downloadLoop w bucketName blobs [] s with
          | Except.error (m, s) => handleException w s m
          | Except.ok (downloadedFiles, s) =>
            let s := { s with events := s.events ++ [Event.unlink credentialsPath] }
            if w.unlinkOk then
              let s := { s with fs := setKey s.fs credentialsPath none }
              (SyncResult.success
                ("Downloaded " ++ toString downloadedFiles.length ++
                  " files from " ++ bucketName)
                downloadedFiles modelsDir, s)
            else handleException w s w.unlinkMsg

/-- One parsed row of the `nvidia-smi --query-gpu` CSV output. -/
structure GpuDetail where
  gpuId : Nat
  name : String
  driverVersion : String
  memoryTotalMb : String
  memoryUsedMb : String
  memoryFreeMb : String
  temperatureC : String
  powerDrawW : String
deriving DecidableEq

/-- Python `str.strip()` (over the common ASCII whitespace characters). -/
def pyStrip (s : String) : String :=
  let ws : Char → Bool := fun c => c == ' ' || c == '\t' || c == '\n' || c == '\r'
  String.mk (((s.data.dropWhile ws).reverse.dropWhile ws).reverse)

/-- Parse one CSV line of the GPU query output (lines 131–143). -/
def parseGpuLine (i : Nat) (line : String) : Option GpuDetail :=
  let parts := (splitOnChar ',' line).map pyStrip
  if parts.length ≥ 7 then
    some { gpuId := i, name := parts.getD 0 "", driverVersion := parts.getD 1 "",
           memoryTotalMb := parts.getD 2 "", memoryUsedMb := parts.getD 3 "",
           memoryFreeMb := parts.getD 4 "", temperatureC := parts.getD 5 "",
           powerDrawW := parts.getD 6 "" }
  else none

/-- Parse the full GPU query output (lines 129–143). -/
def parseGpuDetails (out : String) : List GpuDetail :=
  ((splitOnChar '\n' (pyStrip out)).enum).filterMap
    (fun p => parseGpuLine p.1 p.2)

/-- Whether `needle` is a prefix of `hay` (over character lists). -/
def charPrefixHolds : List Char → List Char → Bool
  | [], _ => true
  | _ :: _, [] => false
  | a :: as, b :: bs => a == b && charPrefixHolds as bs

/-- Whether `needle` occurs as a contiguous substring of `hay`. -/
def containsSub (needle : List Char) : List Char → Bool
  | [] => charPrefixHolds needle []
  | c :: cs => charPrefixHolds needle (c :: cs) || containsSub needle cs

/-- Python `str.lower()`. -/
def lowerStr (s : String) : String :=
  String.mk (s.data.map Char.toLower)

/-- First line of the `nvcc --version` output containing `release`
(lines 146–153), stripped; `"Not available"` if none. -/
def extractCudaVersion (out : String) : String :=
  match (splitOnChar '\n' out).find?
      (fun l => containsSub "release".data (lowerStr l).data) with
  | some l => pyStrip l
  | none => "Not available"

/-- The `cuda_version` value (lines 146–155): the bare `except` turns an
`nvcc` failure into `"NVCC not available"`. -/
def cudaInfoOf (nvccRes : Except String String) : String :=
  match nvccRes with
  | Except.error _ => "NVCC not available"
  | Except.ok out => extractCudaVersion out

/-- The dictionary returned by `handler`: the sync result (download branch),
the GPU report, the `subprocess_error` dictionary, or the `general_error`
dictionary. -/
inductive HandlerResult where
  | syncRes (r : SyncResult)
  | gpuSuccess (nvidiaSmiOutput : String) (gpuDetails : List GpuDetail)
      (cudaInfo : String) (gpuCount : Nat) (cudaVisibleDevices : String)
      (runpodEndpointId : String) (inputAction : Option String)
  | subprocessError (errMsg : String) (output : String)
  | generalError (errMsg : String)
deriving DecidableEq

/-- The full `--query-gpu` command of lines 122–126. -/
def gpuQueryCmd : List String :=
  ["nvidia-smi",
   "--query-gpu=name,driver_version,memory.total,memory.used,memory.free,temperature.gpu,power.draw",
   "--format=csv,noheader,nounits"]

/-- The nvidia-smi branch of `handler` (lines 111–168): two
`subprocess.check_output` calls whose `CalledProcessError` is reported as a
`subprocess_error` result, then a swallowed `nvcc` probe. -/
def gpuBranch (w : World) (s : St) (actionVal : Option String) :
    HandlerResult × St :=
  let s := { s with events := s.events ++ [Event.subprocess ["nvidia-smi"]] }
  match w.smi with
  | Except.error e =>
    (HandlerResult.subprocessError ("Command failed: " ++ e.1) e.2, s)
  | Except.ok smiResult =>
    let s := { s with events := s.events ++ [Event.subprocess gpuQueryCmd] }
    match w.gpuQuery with
    | Except.error e =>
      (HandlerResult.subprocessError ("Command failed: " ++ e.1) e.2, s)
    | Except.ok q =>
      let gpuDetails := parseGpuDetails q
      let s := { s with events := s.events ++ [Event.subprocess ["nvcc", "--version"]] }
      (HandlerResult.gpuSuccess smiResult gpuDetails (cudaInfoOf w.nvcc)
        gpuDetails.length
        ((s.env "CUDA_VISIBLE_DEVICES").getD "Not set")
        ((s.env "RUNPOD_ENDPOINT_ID").getD "Not set") actionVal, s)

/-- The `"input"` mapping of a job; only the `"action"` entry is consulted. -/
structure JobInput where
  action : Option String
deriving DecidableEq

/-- A job payload: `job.get("input", {})` yields `input` or the empty
mapping. -/
structure Job where
  input : Option JobInput
deriving DecidableEq

/-- `handler` (lines 92–183): dispatch on `job["input"]["action"]`. -/
def handler (job : Job) (w : World) (s : St) : HandlerResult × St :=
  let jobInput := job.input.getD { action := none }
  if jobInput.action = some "download_models" then
    let r := downloadModelsFromGcs w s
    (HandlerResult.syncRes r.1, r.2)
  else
    gpuBranch w s jobInput.action

/-! ## Pure denotations used by the proofs

Each `loop…` function computes, from the fetch oracle alone, one observable
of the download loop: the first error raised, the list of paths recorded,
the ordered list of file writes performed, and the event trace.  The
`sync…Of` functions do the same for the whole of `download_models_from_gcs`.
The characterization lemmas below prove the embedded code equal to these
denotations. -/

/-- Last-writer-wins lookup of `p` in an ordered write list. -/
def lastWrite : List (String × String) → String → Option String
  | [], _ => none
  | pc :: rest, p =>
    match lastWrite rest p with
    | some v => some v
    | none => if p = pc.1 then some pc.2 else none

/-- Apply an ordered list of file writes to a filesystem. -/
def applyWrites : List (String × String) → (String → Option String) →
    String → Option String
  | [], fs => fs
  | pc :: rest, fs => applyWrites rest (setKey fs pc.1 (some pc.2))

/-- The first fetch error raised by the download loop, if any. -/
def loopErr (fetch : String → String → Except String String) (b : String) :
    List String → Option String
  | [] => none
  | k :: ks =>
    if endsWithSlash k then loopErr fetch b ks
    else
      match fetch b k with
      | Except.ok _ => loopErr fetch b ks
      | Except.error m => some m

/-- The local paths recorded by the download loop (up to the first error). -/
def loopFiles (fetch : String → String → Except String String) (b : String) :
    List String → List String
  | [] => []
  | k :: ks =>
    if endsWithSlash k then loopFiles fetch b ks
    else
      match fetch b k with
      | Except.ok _ => localPathOf k :: loopFiles fetch b ks
      | Except.error _ => []

/-- The ordered file writes performed by the download loop. -/
def loopWrites (fetch : String → String → Except String String) (b : String) :
    List String → List (String × String)
  | [] => []
  | k :: ks =>
    if endsWithSlash k then loopWrites fetch b ks
    else
      match fetch b k with
      | Except.ok c => (localPathOf k, c) :: loopWrites fetch b ks
      | Except.error _ => []

/-- The event trace of the download loop. -/
def loopEvents (fetch : String → String → Except String String) (b : String) :
    List String → List Event
  | [] => []
  | k :: ks =>
    if endsWithSlash k then loopEvents fetch b ks
    else
      match fetch b k with
      | Except.ok _ =>
        Event.mkdir (parentPath (localPathOf k)) :: Event.netFetch b k ::
          Event.writeFile (localPathOf k) :: loopEvents fetch b ks
      | Except.error _ => [Event.mkdir (parentPath (localPathOf k)), Event.netFetch b k]

/-- The file writes performed by a whole sync invocation (with a
non-empty credential), excluding the temporary credential file. -/
def syncWritesDone (w : World) (bn : String) : List (String × String) :=
  match w.clientInit with
  | Except.error _ => []
  | Except.ok _ =>
    match w.listBlobs bn with
    | Except.error _ => []
    | Except.ok keys => loopWrites w.fetch bn keys

/-- The result of `download_models_from_gcs` as a function of the oracle and
the two environment values it reads. -/
def syncResultOf (w : World) (cred : Option String) (bn : String) : SyncResult :=
  match cred with
  | none => SyncResult.error "GCP_CREDENTIALS environment variable not set"
  | some c =>
    if c = "" then SyncResult.error "GCP_CREDENTIALS environment variable not set"
    else
      match w.clientInit with
      | Except.error m => SyncResult.error ("Failed to download models: " ++ m)
      | Except.ok _ =>
        match w.listBlobs bn with
        | Except.error m => SyncResult.error ("Failed to download models: " ++ m)
        | Except.ok keys =>
          match loopErr w.fetch bn keys with
          | some m => SyncResult.error ("Failed to download models: " ++ m)
          | none =>
            if w.unlinkOk then
              SyncResult.success
                ("Downloaded " ++ toString (loopFiles w.fetch bn keys).length ++
                  " files from " ++ bn)
                (loopFiles w.fetch bn keys) modelsDir
            else SyncResult.error ("Failed to download models: " ++ w.unlinkMsg)

/-- The final filesystem of a sync invocation. -/
def syncFsOf (w : World) (cred : Option String) (bn : String)
    (fs : String → Option String) : String → Option String :=
  match cred with
  | none => fs
  | some c =>
    if c = "" then fs
    else
      let fs2 := applyWrites (syncWritesDone w bn) (setKey fs w.tmpName (some c))
      if w.unlinkOk then setKey fs2 w.tmpName none else fs2

/-- The final environment of a sync invocation. -/
def syncEnvOf (w : World) (cred : Option String)
    (env : String → Option String) : String → Option String :=
  match cred with
  | none => env
  | some c =>
    if c = "" then env
    else setKey env "GOOGLE_APPLICATION_CREDENTIALS" (some w.tmpName)

/-- The events appended by a sync invocation. -/
def syncEventsOf (w : World) (cred : Option String) (bn : String) : List Event :=
  match cred with
  | none => []
  | some c =>
    if c = "" then []
    else
      [Event.mkdir modelsDir, Event.writeFile w.tmpName, Event.clientInit] ++
      match w.clientInit with
      | Except.error _ => [Event.unlink w.tmpName]
      | Except.ok _ =>
        Event.netListBlobs bn ::
        match w.listBlobs bn with
        | Except.error _ => [Event.unlink w.tmpName]
        | Except.ok keys =>
          loopEvents w.fetch bn keys ++
          match loopErr w.fetch bn keys with
          | some _ => [Event.unlink w.tmpName]
          | none =>
            if w.unlinkOk then [Event.unlink w.tmpName]
            else [Event.unlink w.tmpName, Event.unlink w.tmpName]

theorem applyWrites_apply (ws : List (String × String)) :
    ∀ (fs : String → Option String) (p : String),
    applyWrites ws fs p =
      match lastWrite ws p with
      | some v => some v
      | none => fs p := by
  induction ws with
  | nil => intro fs p; rfl
  | cons pc rest ih =>
    intro fs p
    simp only [applyWrites, lastWrite, ih]
    cases lastWrite rest p with
    | some v => rfl
    | none =>
      simp only [setKey]
      by_cases hp : p = pc.1 <;> simp [hp]

theorem downloadLoop_eq (w : World) (b : String) (keys : List String) :
    ∀ (acc : List String) (s : St),
    downloadLoop w b keys acc s =
      match loopErr w.fetch b keys with
      | none =>
        Except.ok (acc ++ loopFiles w.fetch b keys,
          { fs := applyWrites (loopWrites w.fetch b keys) s.fs, env := s.env,
            events := s.events ++ loopEvents w.fetch b keys })
      | some m =>
        Except.error (m,
          { fs := applyWrites (loopWrites w.fetch b keys) s.fs, env := s.env,
            events := s.events ++ loopEvents w.fetch b keys }) := by
  induction keys with
  | nil =>
    intro acc s
    simp [downloadLoop, loopErr, loopFiles, loopWrites, loopEvents, applyWrites]
  | cons k ks ih =>
    intro acc s
    cases hk : endsWithSlash k with
    | true =>
      simp [downloadLoop, loopErr, loopFiles, loopWrites, loopEvents, hk, ih]
    | false =>
      cases hf : w.fetch b k with
      | ok c =>
        simp only [downloadLoop, loopErr, loopFiles, loopWrites, loopEvents, hk,
          hf, Bool.false_eq_true, if_false]
        rw [ih]
        cases loopErr w.fetch b ks <;>
          simp [applyWrites, List.append_assoc]
      | error m =>
        simp [downloadLoop, loopErr, loopFiles, loopWrites, loopEvents, hk, hf,
          applyWrites, List.append_assoc]

theorem sync_characterization (w : World) (s : St) :
    downloadModelsFromGcs w s =
      (syncResultOf w (s.env "GCP_CREDENTIALS")
         ((s.env "GCS_BUCKET").getD "talking-head-models"),
       { fs := syncFsOf w (s.env "GCP_CREDENTIALS")
           ((s.env "GCS_BUCKET").getD "talking-head-models") s.fs,
         env := syncEnvOf w (s.env "GCP_CREDENTIALS") s.env,
         events := s.events ++ syncEventsOf w (s.env "GCP_CREDENTIALS")
           ((s.env "GCS_BUCKET").getD "talking-head-models") }) := by
  cases hc : s.env "GCP_CREDENTIALS" with
  | none =>
    simp [downloadModelsFromGcs, syncResultOf, syncFsOf, syncEnvOf, syncEventsOf, hc]
  | some c =>
    by_cases hce : c = ""
    · subst hce
      simp [downloadModelsFromGcs, syncResultOf, syncFsOf, syncEnvOf, syncEventsOf, hc]
    · cases hci : w.clientInit with
      | error m =>
        cases hu : w.unlinkOk <;>
          simp [downloadModelsFromGcs, syncResultOf, syncFsOf, syncEnvOf,
            syncEventsOf, syncWritesDone, hc, hce, hci, hu, handleException,
            applyWrites, List.append_assoc]
      | ok u =>
        cases hl : w.listBlobs ((s.env "GCS_BUCKET").getD "talking-head-models") with
        | error m =>
          cases hu : w.unlinkOk <;>
            simp [downloadModelsFromGcs, syncResultOf, syncFsOf, syncEnvOf,
              syncEventsOf, syncWritesDone, hc, hce, hci, hl, hu, handleException,
              applyWrites, List.append_assoc]
        | ok keys =>
          cases hle : loopErr w.fetch ((s.env "GCS_BUCKET").getD "talking-head-models") keys with
          | some m =>
            cases hu : w.unlinkOk <;>
              simp [downloadModelsFromGcs, syncResultOf, syncFsOf, syncEnvOf,
                syncEventsOf, syncWritesDone, hc, hce, hci, hl, hle, hu,
                handleException, downloadLoop_eq, applyWrites, List.append_assoc]
          | none =>
            cases hu : w.unlinkOk <;>
              simp [downloadModelsFromGcs, syncResultOf, syncFsOf, syncEnvOf,
                syncEventsOf, syncWritesDone, hc, hce, hci, hl, hle, hu,
                handleException, downloadLoop_eq, applyWrites, List.append_assoc]

theorem localPathOf_eq_destJoin {k : String} (h : startsWithSlash k = false) :
    localPathOf k = destJoin k := by
  simp [localPathOf, h]

theorem loopErr_none_fetch {fetch : String → String → Except String String}
    {b : String} {keys : List String}
    (h : loopErr fetch b keys = none) :
    ∀ k ∈ keys, endsWithSlash k = false → ∃ c, fetch b k = Except.ok c := by
  induction keys with
  | nil => intro k hk; simp at hk
  | cons k0 ks ih =>
    intro k hk hkp
    rcases List.mem_cons.mp hk with rfl | hks
    · cases hf : fetch b k with
      | ok c => exact ⟨c, rfl⟩
      | error m => simp [loopErr, hkp, hf] at h
    · cases hk0 : endsWithSlash k0 with
      | true =>
        simp only [loopErr, hk0, if_true] at h
        exact ih h k hks hkp
      | false =>
        cases hf : fetch b k0 with
        | ok c =>
          simp only [loopErr, hk0, Bool.false_eq_true, if_false, hf] at h
          exact ih h k hks hkp
        | error m => simp [loopErr, hk0, hf] at h

theorem loopFiles_of_noerr {fetch : String → String → Except String String}
    {b : String} {keys : List String}
    (h : loopErr fetch b keys = none) :
    loopFiles fetch b keys =
      (keys.filter (fun k => !endsWithSlash k)).map localPathOf := by
  induction keys with
  | nil => rfl
  | cons k0 ks ih =>
    cases hk0 : endsWithSlash k0 with
    | true =>
      simp only [loopErr, hk0, if_true] at h
      simp [loopFiles, List.filter_cons, hk0, ih h]
    | false =>
      cases hf : fetch b k0 with
      | ok c =>
        simp only [loopErr, hk0, Bool.false_eq_true, if_false, hf] at h
        simp [loopFiles, List.filter_cons, hk0, hf, ih h]
      | error m => simp [loopErr, hk0, hf] at h

theorem lastWrite_loopWrites_none {fetch : String → String → Except String String}
    {b p : String} :
    ∀ {keys : List String},
    (∀ k ∈ keys, endsWithSlash k = false → localPathOf k ≠ p) →
    lastWrite (loopWrites fetch b keys) p = none := by
  intro keys
  induction keys with
  | nil => intro _; rfl
  | cons k0 ks ih =>
    intro h
    cases hk0 : endsWithSlash k0 with
    | true =>
      simp only [loopWrites, hk0, if_true]
      exact ih (fun k hk hkp => h k (List.mem_cons_of_mem _ hk) hkp)
    | false =>
      cases hf : fetch b k0 with
      | ok c =>
        simp only [loopWrites, hk0, Bool.false_eq_true, if_false, hf, lastWrite]
        rw [ih (fun k hk hkp => h k (List.mem_cons_of_mem _ hk) hkp)]
        have hne : localPathOf k0 ≠ p := h k0 (List.mem_cons_self _ _) hk0
        simp [Ne.symm hne]
      | error m => simp [loopWrites, hk0, hf, lastWrite]

theorem lastWrite_loopWrites_eq {fetch : String → String → Except String String}
    {b : String} :
    ∀ {keys : List String},
    loopErr fetch b keys = none →
    (∀ k1 ∈ keys, ∀ k2 ∈ keys, endsWithSlash k1 = false →
      endsWithSlash k2 = false → localPathOf k1 = localPathOf k2 → k1 = k2) →
    ∀ k ∈ keys, endsWithSlash k = false → ∀ c, fetch b k = Except.ok c →
    lastWrite (loopWrites fetch b keys) (localPathOf k) = some c := by
  intro keys
  induction keys with
  | nil => intro _ _ k hk; simp at hk
  | cons k0 ks ih =>
    intro herr hinj k hk hkp c hc
    have hinj' : ∀ k1 ∈ ks, ∀ k2 ∈ ks, endsWithSlash k1 = false →
        endsWithSlash k2 = false → localPathOf k1 = localPathOf k2 → k1 = k2 :=
      fun k1 h1 k2 h2 => hinj k1 (List.mem_cons_of_mem _ h1) k2 (List.mem_cons_of_mem _ h2)
    cases hk0 : endsWithSlash k0 with
    | true =>
      simp only [loopErr, hk0, if_true] at herr
      simp only [loopWrites, hk0, if_true]
      rcases List.mem_cons.mp hk with rfl | hks
      · rw [hk0] at hkp; exact absurd hkp (by simp)
      · exact ih herr hinj' k hks hkp c hc
    | false =>
      cases hf : fetch b k0 with
      | ok c0 =>
        simp only [loopErr, hk0, Bool.false_eq_true, if_false, hf] at herr
        simp only [loopWrites, hk0, Bool.false_eq_true, if_false, hf, lastWrite]
        by_cases hks : k ∈ ks
        · rw [ih herr hinj' k hks hkp c hc]
        · have hkk0 : k = k0 := by
            rcases List.mem_cons.mp hk with rfl | h'
            · rfl
            · exact absurd h' hks
          subst hkk0
          have hnone : lastWrite (loopWrites fetch b ks) (localPathOf k) = none := by
            apply lastWrite_loopWrites_none
            intro k' hk' hk'p hpe
            exact hks (hinj k' (List.mem_cons_of_mem _ hk') k hk hk'p hkp hpe ▸ hk')
          rw [hnone]
          rw [hc] at hf
          simp [Except.ok.injEq] at hf
          simp [hf]
      | error m => simp [loopErr, hk0, hf] at herr

theorem loopEvents_netFetch_mem {fetch : String → String → Except String String}
    {b b' k' : String} :
    ∀ {keys : List String},
    Event.netFetch b' k' ∈ loopEvents fetch b keys →
    b' = b ∧ k' ∈ keys ∧ endsWithSlash k' = false := by
  intro keys
  induction keys with
  | nil => intro h; simp [loopEvents] at h
  | cons k0 ks ih =>
    intro h
    cases hk0 : endsWithSlash k0 with
    | true =>
      simp only [loopEvents, hk0, if_true] at h
      obtain ⟨hb, hm, hp⟩ := ih h
      exact ⟨hb, List.mem_cons_of_mem _ hm, hp⟩
    | false =>
      cases hf : fetch b k0 with
      | ok c =>
        simp only [loopEvents, hk0, Bool.false_eq_true, if_false, hf,
          List.mem_cons] at h
        rcases h with h | h | h | h
        · exact absurd h (by simp)
        · rw [Event.netFetch.injEq] at h
          obtain ⟨hb, hkk⟩ := h
          subst hkk
          exact ⟨hb, List.mem_cons_self _ _, hk0⟩
        · exact absurd h (by simp)
        · obtain ⟨hb, hm, hp⟩ := ih h
          exact ⟨hb, List.mem_cons_of_mem _ hm, hp⟩
      | error m =>
        simp only [loopEvents, hk0, Bool.false_eq_true, if_false, hf,
          List.mem_cons, List.mem_singleton] at h
        rcases h with h | h | h
        · exact absurd h (by simp)
        · rw [Event.netFetch.injEq] at h
          obtain ⟨hb, hkk⟩ := h
          subst hkk
          exact ⟨hb, List.mem_cons_self _ _, hk0⟩
        · exact absurd h (by simp)

theorem loopErr_filter (fetch : String → String → Except String String)
    (b : String) : ∀ keys : List String,
    loopErr fetch b (keys.filter (fun k => !endsWithSlash k)) =
      loopErr fetch b keys := by
  intro keys
  induction keys with
  | nil => rfl
  | cons k0 ks ih =>
    cases hk0 : endsWithSlash k0 with
    | true => simp [List.filter_cons, hk0, loopErr, ih]
    | false =>
      cases hf : fetch b k0 <;>
        simp [List.filter_cons, hk0, loopErr, hf, ih]

theorem loopFiles_filter (fetch : String → String → Except String String)
    (b : String) : ∀ keys : List String,
    loopFiles fetch b (keys.filter (fun k => !endsWithSlash k)) =
      loopFiles fetch b keys := by
  intro keys
  induction keys with
  | nil => rfl
  | cons k0 ks ih =>
    cases hk0 : endsWithSlash k0 with
    | true => simp [List.filter_cons, hk0, loopFiles, ih]
    | false =>
      cases hf : fetch b k0 <;>
        simp [List.filter_cons, hk0, loopFiles, hf, ih]

theorem loopWrites_filter (fetch : String → String → Except String String)
    (b : String) : ∀ keys : List String,
    loopWrites fetch b (keys.filter (fun k => !endsWithSlash k)) =
      loopWrites fetch b keys := by
  intro keys
  induction keys with
  | nil => rfl
  | cons k0 ks ih =>
    cases hk0 : endsWithSlash k0 with
    | true => simp [List.filter_cons, hk0, loopWrites, ih]
    | false =>
      cases hf : fetch b k0 <;>
        simp [List.filter_cons, hk0, loopWrites, hf, ih]

theorem loopEvents_filter (fetch : String → String → Except String String)
    (b : String) : ∀ keys : List String,
    loopEvents fetch b (keys.filter (fun k => !endsWithSlash k)) =
      loopEvents fetch b keys := by
  intro keys
  induction keys with
  | nil => rfl
  | cons k0 ks ih =>
    cases hk0 : endsWithSlash k0 with
    | true => simp [List.filter_cons, hk0, loopEvents, ih]
    | false =>
      cases hf : fetch b k0 <;>
        simp [List.filter_cons, hk0, loopEvents, hf, ih]

theorem loopErr_stop (fetch : String → String → Except String String)
    {b k m : String} (hk : endsWithSlash k = false)
    (hf : fetch b k = Except.error m) :
    ∀ (pre : List String) (post : List String),
    (∀ k' ∈ pre, endsWithSlash k' = false → ∃ c, fetch b k' = Except.ok c) →
    loopErr fetch b (pre ++ k :: post) = some m := by
  intro pre
  induction pre with
  | nil => intro post _; simp [loopErr, hk, hf]
  | cons p0 ps ih =>
    intro post h
    cases hp0 : endsWithSlash p0 with
    | true =>
      simpa [loopErr, hp0] using
        ih post (fun k' h1 h2 => h k' (List.mem_cons_of_mem _ h1) h2)
    | false =>
      obtain ⟨c, hc⟩ := h p0 (List.mem_cons_self _ _) hp0
      simpa [loopErr, hp0, hc] using
        ih post (fun k' h1 h2 => h k' (List.mem_cons_of_mem _ h1) h2)

theorem loopEvents_stop (fetch : String → String → Except String String)
    {b k m : String} (hk : endsWithSlash k = false)
    (hf : fetch b k = Except.error m) :
    ∀ (pre : List String) (post : List String),
    (∀ k' ∈ pre, endsWithSlash k' = false → ∃ c, fetch b k' = Except.ok c) →
    loopEvents fetch b (pre ++ k :: post) =
      loopEvents fetch b pre ++
        [Event.mkdir (parentPath (localPathOf k)), Event.netFetch b k] := by
  intro pre
  induction pre with
  | nil => intro post _; simp [loopEvents, hk, hf]
  | cons p0 ps ih =>
    intro post h
    cases hp0 : endsWithSlash p0 with
    | true =>
      simpa [loopEvents, hp0] using
        ih post (fun k' h1 h2 => h k' (List.mem_cons_of_mem _ h1) h2)
    | false =>
      obtain ⟨c, hc⟩ := h p0 (List.mem_cons_self _ _) hp0
      simp [loopEvents, hp0, hc,
        ih post (fun k' h1 h2 => h k' (List.mem_cons_of_mem _ h1) h2)]

theorem loopEvents_no_subprocess (fetch : String → String → Except String String)
    (b : String) (cmd : List String) : ∀ keys : List String,
    Event.subprocess cmd ∉ loopEvents fetch b keys := by
  intro keys
  induction keys with
  | nil => simp [loopEvents]
  | cons k0 ks ih =>
    cases hk0 : endsWithSlash k0 with
    | true => simpa [loopEvents, hk0] using ih
    | false =>
      cases hf : fetch b k0 <;> simp [loopEvents, hk0, hf, ih]

theorem syncEventsOf_unlink_mem (w : World) {c : String} (hce : c ≠ "")
    (bn : String) : Event.unlink w.tmpName ∈ syncEventsOf w (some c) bn := by
  simp only [syncEventsOf, hce, if_false]
  cases w.clientInit with
  | error m => simp
  | ok u =>
    cases w.listBlobs bn with
    | error m => simp
    | ok keys =>
      cases hle : loopErr w.fetch bn keys with
      | some m => simp [hle]
      | none => cases hu : w.unlinkOk <;> simp [hle, hu]

theorem syncEventsOf_no_subprocess (w : World) (cred : Option String)
    (bn : String) (cmd : List String) :
    Event.subprocess cmd ∉ syncEventsOf w cred bn := by
  cases cred with
  | none => simp [syncEventsOf]
  | some c =>
    by_cases hce : c = ""
    · simp [syncEventsOf, hce]
    · simp only [syncEventsOf, hce, if_false]
      cases w.clientInit with
      | error m => simp
      | ok u =>
        cases w.listBlobs bn with
        | error m => simp
        | ok keys =>
          cases hle : loopErr w.fetch bn keys with
          | some m => simp [hle, loopEvents_no_subprocess w.fetch bn cmd keys]
          | none =>
            cases hu : w.unlinkOk <;>
              simp [hle, hu, loopEvents_no_subprocess w.fetch bn cmd keys]

theorem syncFsOf_tmp_none (w : World) {c : String} (hce : c ≠ "")
    (bn : String) (fs : String → Option String) (hu : w.unlinkOk = true) :
    syncFsOf w (some c) bn fs w.tmpName = none := by
  simp [syncFsOf, hce, hu, setKey]

theorem syncEnvOf_reads (w : World) (cred : Option String)
    (env : String → Option String) (k : String)
    (hk : k ≠ "GOOGLE_APPLICATION_CREDENTIALS") :
    syncEnvOf w cred env k = env k := by
  cases cred with
  | none => rfl
  | some c =>
    by_cases hce : c = "" <;> simp [syncEnvOf, setKey, hk, hce]

theorem syncFsOf_idem (w : World) (cred : Option String) (bn : String)
    (fs : String → Option String) (p : String) :
    syncFsOf w cred bn (syncFsOf w cred bn fs) p = syncFsOf w cred bn fs p := by
  cases cred with
  | none => rfl
  | some c =>
    by_cases hce : c = ""
    · simp [syncFsOf, hce]
    · cases hu : w.unlinkOk with
      | true =>
        simp only [syncFsOf, hce, if_false, hu, if_true]
        by_cases hp : p = w.tmpName <;>
          cases hlw : lastWrite (syncWritesDone w bn) p <;>
            simp [applyWrites_apply, setKey, hp, hlw]
      | false =>
        simp only [syncFsOf, hce, if_false, hu, Bool.false_eq_true]
        by_cases hp : p = w.tmpName <;>
          cases hlw : lastWrite (syncWritesDone w bn) p <;>
            simp [applyWrites_apply, setKey, hp, hlw]

/-! ## Concrete worlds and states used as witnesses -/

/-- Empty filesystem. -/
def fs0 : String → Option String := fun _ => none

/-- Environment holding only a non-empty credential. -/
def env0 : String → Option String :=
  fun k => if k = "GCP_CREDENTIALS" then some "CREDS" else none

/-- Initial state with a credential configured. -/
def st0 : St := { fs := fs0, env := env0, events := [] }

/-- Initial state with no environment variables at all. -/
def stNoCreds : St := { fs := fs0, env := fun _ => none, events := [] }

/-- Base oracle: empty bucket, deletable temp file, healthy subprocesses. -/
def wBase : World :=
  { tmpName := "/tmp/tmpdoq31ch7.json", clientInit := Except.ok (),
    listBlobs := fun _ => Except.ok [],
    fetch := fun _ _ => Except.error "object missing",
    unlinkOk := true, unlinkMsg := "unlink failed",
    smi := Except.ok "SMI-OUTPUT", gpuQuery := Except.ok "",
    nvcc := Except.error "nvcc missing" }

/-- Oracle for the spec scenario: two objects and one directory placeholder. -/
def wGood : World :=
  { wBase with
    listBlobs := fun _ =>
      Except.ok ["models/a.bin", "models/sub/", "models/sub/b.bin"],
    fetch := fun _ k =>
      if k = "models/a.bin" then Except.ok "DEADBEEF"
      else if k = "models/sub/b.bin" then Except.ok "0102"
      else Except.error "missing" }

/-- Oracle whose bucket listing contains a key that is an absolute path. -/
def wAbsKey : World :=
  { wBase with
    listBlobs := fun _ => Except.ok ["/x"],
    fetch := fun _ k =>
      if k = "/x" then Except.ok "QQ" else Except.error "missing" }

/-- Oracle whose bucket enumeration fails. -/
def wListFail : World :=
  { wBase with listBlobs := fun _ => Except.error "bucket not found" }

/-- Oracle where the second object's transfer fails and a later one would
succeed. -/
def wXferFail : World :=
  { wBase with
    listBlobs := fun _ => Except.ok ["a.bin", "bad.bin", "later.bin"],
    fetch := fun _ k =>
      if k = "a.bin" then Except.ok "AA"
      else if k = "later.bin" then Except.ok "CC"
      else Except.error "boom" }

/-- Oracle where everything succeeds except deleting the temp file. -/
def wUnlinkFail : World :=
  { wBase with
    listBlobs := fun _ => Except.ok ["a.bin"],
    fetch := fun _ k =>
      if k = "a.bin" then Except.ok "AA" else Except.error "missing",
    unlinkOk := false,
    unlinkMsg := "Device or resource busy" }

/-- Job requesting the model download. -/
def jobDl : Job := { input := some { action := some "download_models" } }

/-- Job with no input mapping at all. -/
def jobGpu : Job := { input := none }

/-! ## Claim C2 -/

/-- Claim C2: with `GCP_CREDENTIALS` absent or empty, `download_models_from_gcs`
returns the distinct configuration-error result and leaves the state entirely
unchanged — in particular no event (network call, mkdir of the destination
root, or file write) is performed. -/
theorem missing_credential_short_circuits (w : World) (s : St)
    (h : s.env "GCP_CREDENTIALS" = none ∨ s.env "GCP_CREDENTIALS" = some "") :
    downloadModelsFromGcs w s =
      (SyncResult.error "GCP_CREDENTIALS environment variable not set", s) := by
  rcases h with h | h <;> simp [downloadModelsFromGcs, h]

/-- Witness for C2 at a concrete world and state. -/
theorem missing_credential_short_circuits_witness :
    (stNoCreds.env "GCP_CREDENTIALS" = none ∨
      stNoCreds.env "GCP_CREDENTIALS" = some "")
    ∧ downloadModelsFromGcs wBase stNoCreds =
        (SyncResult.error "GCP_CREDENTIALS environment variable not set",
         stNoCreds) :=
  ⟨Or.inl rfl,
   missing_credential_short_circuits wBase stNoCreds (Or.inl rfl)⟩

/-! ## Claim C3 -/

/-- The same world with all directory-placeholder keys removed from every
bucket listing. -/
def filterPlaceholders (w : World) : World :=
  { w with listBlobs :=
      fun b => Except.map (fun ks => ks.filter (fun k => !endsWithSlash k)) (w.listBlobs b) }

theorem syncWritesDone_filter (w : World) (bn : String) :
    syncWritesDone (filterPlaceholders w) bn = syncWritesDone w bn := by
  cases hci : w.clientInit with
  | error m => simp [syncWritesDone, filterPlaceholders, hci]
  | ok u =>
    cases hl : w.listBlobs bn with
    | error m => simp [syncWritesDone, filterPlaceholders, hci, hl, Except.map]
    | ok keys =>
      simp [syncWritesDone, filterPlaceholders, hci, hl, Except.map,
        loopWrites_filter]

theorem filterPlaceholders_resultOf (w : World) (cred : Option String)
    (bn : String) :
    syncResultOf (filterPlaceholders w) cred bn = syncResultOf w cred bn := by
  cases cred with
  | none => rfl
  | some c =>
    by_cases hce : c = ""
    · simp [syncResultOf, hce]
    · simp only [syncResultOf, hce, if_false]
      cases hci : w.clientInit with
      | error m => simp [filterPlaceholders, hci]
      | ok u =>
        simp only [filterPlaceholders, hci]
        cases hl : w.listBlobs bn with
        | error m => simp [hl, Except.map]
        | ok keys => simp [hl, Except.map, loopErr_filter, loopFiles_filter]

theorem filterPlaceholders_fsOf (w : World) (cred : Option String)
    (bn : String) (fs : String → Option String) :
    syncFsOf (filterPlaceholders w) cred bn fs = syncFsOf w cred bn fs := by
  cases cred with
  | none => rfl
  | some c =>
    by_cases hce : c = ""
    · simp [syncFsOf, hce]
    · simp only [syncFsOf, hce, if_false]
      rw [syncWritesDone_filter]
      simp [filterPlaceholders]

theorem filterPlaceholders_envOf (w : World) (cred : Option String)
    (env : String → Option String) :
    syncEnvOf (filterPlaceholders w) cred env = syncEnvOf w cred env := by
  cases cred with
  | none => rfl
  | some c =>
    by_cases hce : c = "" <;> simp [syncEnvOf, hce, filterPlaceholders]

theorem filterPlaceholders_eventsOf (w : World) (cred : Option String)
    (bn : String) :
    syncEventsOf (filterPlaceholders w) cred bn = syncEventsOf w cred bn := by
  cases cred with
  | none => rfl
  | some c =>
    by_cases hce : c = ""
    · simp [syncEventsOf, hce]
    · simp only [syncEventsOf, hce, if_false]
      cases hci : w.clientInit with
      | error m => simp [filterPlaceholders, hci]
      | ok u =>
        simp only [filterPlaceholders, hci]
        cases hl : w.listBlobs bn with
        | error m => simp [hl, Except.map]
        | ok keys => simp [hl, Except.map, loopEvents_filter, loopErr_filter]

/-- Claim C3: a key ending in the path separator has no local effect at all:
running the sync against the same bucket with every placeholder key removed
from the listing yields exactly the same result, filesystem, environment and
event trace.  In particular no file write, no parent-directory creation and
no entry in the success list ever arises from a placeholder key. -/
theorem placeholder_keys_no_local_effect (w : World) (s : St) :
    downloadModelsFromGcs (filterPlaceholders w) s = downloadModelsFromGcs w s := by
  rw [sync_characterization, sync_characterization,
    filterPlaceholders_resultOf, filterPlaceholders_fsOf,
    filterPlaceholders_envOf, filterPlaceholders_eventsOf]

/-! ## Claim C5 -/

/-- Claim C5: the listing is materialized before any download; if bucket
enumeration fails, the invocation returns an error result, the filesystem is
unchanged except for the (already deleted or leftover) temporary credential
file, and the exact event trace shows a single listing call and no fetch,
no object write and no object mkdir. -/
theorem listing_failure_zero_writes (w : World) (s : St) (c m : String)
    (hc : s.env "GCP_CREDENTIALS" = some c) (hne : c ≠ "")
    (hci : w.clientInit = Except.ok ())
    (hl : w.listBlobs ((s.env "GCS_BUCKET").getD "talking-head-models") =
        Except.error m) :
    (downloadModelsFromGcs w s).1 =
        SyncResult.error ("Failed to download models: " ++ m)
    ∧ (∀ p, p ≠ w.tmpName → (downloadModelsFromGcs w s).2.fs p = s.fs p)
    ∧ (downloadModelsFromGcs w s).2.events = s.events ++
        [Event.mkdir modelsDir, Event.writeFile w.tmpName, Event.clientInit,
         Event.netListBlobs ((s.env "GCS_BUCKET").getD "talking-head-models"),
         Event.unlink w.tmpName] := by
  rw [sync_characterization]
  refine ⟨?_, ?_, ?_⟩
  · simp [syncResultOf, hc, hne, hci, hl]
  · intro p hp
    simp only [syncFsOf, hc, hne, if_false, syncWritesDone, hci, hl, applyWrites]
    cases hu : w.unlinkOk <;> simp [setKey, hp]
  · simp [syncEventsOf, hc, hne, hci, hl]

/-- Witness for C5 at a concrete world and state. -/
theorem listing_failure_zero_writes_witness :
    (downloadModelsFromGcs wListFail st0).1 =
        SyncResult.error ("Failed to download models: " ++ "bucket not found")
    ∧ (∀ p, p ≠ wListFail.tmpName →
        (downloadModelsFromGcs wListFail st0).2.fs p = st0.fs p)
    ∧ (downloadModelsFromGcs wListFail st0).2.events = st0.events ++
        [Event.mkdir modelsDir, Event.writeFile wListFail.tmpName,
         Event.clientInit,
         Event.netListBlobs ((st0.env "GCS_BUCKET").getD "talking-head-models"),
         Event.unlink wListFail.tmpName] :=
  listing_failure_zero_writes wListFail st0 "CREDS" "bucket not found"
    rfl (by decide) rfl rfl

/-! ## Claim C7 -/

/-- Claim C7: whenever the credential was materialized to a temporary file
(the credential is present and non-empty), deleting it is attempted on every
exit path, and when the deletion operation succeeds the file is gone from the
filesystem on return, for success and error outcomes alike. -/
theorem credential_file_cleanup (w : World) (s : St) (c : String)
    (hc : s.env "GCP_CREDENTIALS" = some c) (hne : c ≠ "") :
    (∃ evs, (downloadModelsFromGcs w s).2.events = s.events ++ evs ∧
        Event.unlink w.tmpName ∈ evs)
    ∧ (w.unlinkOk = true → (downloadModelsFromGcs w s).2.fs w.tmpName = none) := by
  rw [sync_characterization]
  constructor
  · refine ⟨_, rfl, ?_⟩
    rw [hc]
    exact syncEventsOf_unlink_mem w hne _
  · intro hu
    rw [hc]
    exact syncFsOf_tmp_none w hne _ s.fs hu

/-- Witness for C7 at a concrete world and state. -/
theorem credential_file_cleanup_witness :
    (∃ evs, (downloadModelsFromGcs wBase st0).2.events = st0.events ++ evs ∧
        Event.unlink wBase.tmpName ∈ evs)
    ∧ (wBase.unlinkOk = true →
        (downloadModelsFromGcs wBase st0).2.fs wBase.tmpName = none) :=
  credential_file_cleanup wBase st0 "CREDS" rfl (by decide)

/-! ## Claim C9 -/

/-- Claim C9: every invocation reaching credential materialization sets the
process-wide `GOOGLE_APPLICATION_CREDENTIALS` to the temporary file's path
and never restores it; no other variable changes; and when deletion succeeds
the variable is left pointing at a now-deleted path. -/
theorem env_mutation_persists (w : World) (s : St) (c : String)
    (hc : s.env "GCP_CREDENTIALS" = some c) (hne : c ≠ "") :
    (downloadModelsFromGcs w s).2.env "GOOGLE_APPLICATION_CREDENTIALS" =
        some w.tmpName
    ∧ (∀ k, k ≠ "GOOGLE_APPLICATION_CREDENTIALS" →
        (downloadModelsFromGcs w s).2.env k = s.env k)
    ∧ (w.unlinkOk = true →
        (downloadModelsFromGcs w s).2.fs w.tmpName = none) := by
  rw [sync_characterization]
  refine ⟨?_, ?_, ?_⟩
  · simp [syncEnvOf, hc, hne, setKey]
  · intro k hk
    exact syncEnvOf_reads w _ s.env k hk
  · intro hu
    rw [hc]
    exact syncFsOf_tmp_none w hne _ s.fs hu

/-- Witness for C9 at a concrete world and state. -/
theorem env_mutation_persists_witness :
    (downloadModelsFromGcs wBase st0).2.env "GOOGLE_APPLICATION_CREDENTIALS" =
        some wBase.tmpName
    ∧ (∀ k, k ≠ "GOOGLE_APPLICATION_CREDENTIALS" →
        (downloadModelsFromGcs wBase st0).2.env k = st0.env k)
    ∧ (wBase.unlinkOk = true →
        (downloadModelsFromGcs wBase st0).2.fs wBase.tmpName = none) :=
  env_mutation_persists wBase st0 "CREDS" rfl (by decide)

/-! ## Claim C6 -/

/-- Claim C6: when an object's transfer fails, the whole sync aborts there:
the result is one aggregate error carrying that failure's description (the
`error` constructor carries only a message — no per-object outcome list and
no list of previously written objects), and the event trace fetches no key
beyond the failing one: every fetched key is either an earlier key of the
listing or the failing key itself. -/
theorem transfer_failure_aborts_sync (w : World) (s : St) (c : String)
    (pre post : List String) (k m : String)
    (hc : s.env "GCP_CREDENTIALS" = some c) (hne : c ≠ "")
    (hci : w.clientInit = Except.ok ())
    (hl : w.listBlobs ((s.env "GCS_BUCKET").getD "talking-head-models") =
        Except.ok (pre ++ k :: post))
    (hpre : ∀ k' ∈ pre, endsWithSlash k' = false →
        ∃ c', w.fetch ((s.env "GCS_BUCKET").getD "talking-head-models") k' =
          Except.ok c')
    (hk : endsWithSlash k = false)
    (hf : w.fetch ((s.env "GCS_BUCKET").getD "talking-head-models") k =
        Except.error m) :
    (downloadModelsFromGcs w s).1 =
        SyncResult.error ("Failed to download models: " ++ m)
    ∧ ∃ evs, (downloadModelsFromGcs w s).2.events = s.events ++ evs ∧
        ∀ b' k', Event.netFetch b' k' ∈ evs →
          (k' ∈ pre ∧ endsWithSlash k' = false) ∨ k' = k := by
  rw [sync_characterization]
  have herr := loopErr_stop w.fetch hk hf pre post hpre
  have hev := loopEvents_stop w.fetch hk hf pre post hpre
  constructor
  · simp [syncResultOf, hc, hne, hci, hl, herr]
  · refine ⟨_, rfl, ?_⟩
    intro b' k' hmem
    rw [hc] at hmem
    simp only [syncEventsOf, hne, if_false, hci, hl, herr, hev] at hmem
    simp only [List.mem_append, List.mem_cons, List.not_mem_nil, or_false,
      false_or, Event.netFetch.injEq, reduceCtorEq] at hmem
    rcases hmem with h | ⟨hb, hkk⟩
    · obtain ⟨_, hm, hp⟩ := loopEvents_netFetch_mem h
      exact Or.inl ⟨hm, hp⟩
    · exact Or.inr hkk

/-- Witness for C6: the failing object aborts before a later, available
object is fetched. -/
theorem transfer_failure_aborts_sync_witness :
    (downloadModelsFromGcs wXferFail st0).1 =
        SyncResult.error ("Failed to download models: " ++ "boom")
    ∧ ∃ evs, (downloadModelsFromGcs wXferFail st0).2.events = st0.events ++ evs ∧
        ∀ b' k', Event.netFetch b' k' ∈ evs →
          (k' ∈ ["a.bin"] ∧ endsWithSlash k' = false) ∨ k' = "bad.bin" :=
  transfer_failure_aborts_sync wXferFail st0 "CREDS" ["a.bin"] ["later.bin"]
    "bad.bin" "boom" rfl (by decide) rfl rfl
    (by
      intro k' hk' hslash
      simp only [List.mem_singleton] at hk'
      subst hk'
      exact ⟨"AA", rfl⟩)
    (by decide) rfl

/-! ## Claim C4 -/

/-- Claim C4 counterexample: every listing and transfer step succeeds and only
the deletion of the temporary credential file fails, yet the returned result
is an error carrying the deletion failure — not `status = success` as the
claim asserts.  (Line 69 of `handler.py` is inside the `try`, so the raised
`OSError` reaches the generic handler.) -/
theorem cleanup_failure_becomes_primary_result :
    wUnlinkFail.listBlobs "talking-head-models" = Except.ok ["a.bin"]
    ∧ wUnlinkFail.fetch "talking-head-models" "a.bin" = Except.ok "AA"
    ∧ (downloadModelsFromGcs wUnlinkFail st0).1 =
        SyncResult.error "Failed to download models: Device or resource busy"
    ∧ ¬ ∃ msg fl d, (downloadModelsFromGcs wUnlinkFail st0).1 =
        SyncResult.success msg fl d := by
  refine ⟨rfl, rfl, rfl, ?_⟩
  rintro ⟨msg, fl, d, h⟩
  rw [show (downloadModelsFromGcs wUnlinkFail st0).1 =
      SyncResult.error "Failed to download models: Device or resource busy"
    from rfl] at h
  exact SyncResult.noConfusion h

/-- Claim C4 (amended): a failure to delete the temporary credential file
during exception handling never masks the prior real error — whether client
construction/authentication, listing, or an object transfer failed, the
returned error carries that original failure's description regardless of
whether the deletion succeeds; however, when every listing and transfer step
succeeded, a deletion failure is caught by the generic handler and the
invocation returns an error describing the deletion failure instead of
success. -/
theorem cleanup_never_masks_prior_error (w : World) (s : St) (c : String)
    (hc : s.env "GCP_CREDENTIALS" = some c) (hne : c ≠ "") :
    (∀ m, w.clientInit = Except.error m →
      (downloadModelsFromGcs w s).1 =
        SyncResult.error ("Failed to download models: " ++ m))
    ∧ (∀ m, w.clientInit = Except.ok () →
        w.listBlobs ((s.env "GCS_BUCKET").getD "talking-head-models") =
          Except.error m →
      (downloadModelsFromGcs w s).1 =
        SyncResult.error ("Failed to download models: " ++ m))
    ∧ (∀ keys m, w.clientInit = Except.ok () →
        w.listBlobs ((s.env "GCS_BUCKET").getD "talking-head-models") =
          Except.ok keys →
        loopErr w.fetch ((s.env "GCS_BUCKET").getD "talking-head-models") keys =
          some m →
      (downloadModelsFromGcs w s).1 =
        SyncResult.error ("Failed to download models: " ++ m))
    ∧ (∀ keys, w.clientInit = Except.ok () →
        w.listBlobs ((s.env "GCS_BUCKET").getD "talking-head-models") =
          Except.ok keys →
        loopErr w.fetch ((s.env "GCS_BUCKET").getD "talking-head-models") keys =
          none →
        w.unlinkOk = false →
      (downloadModelsFromGcs w s).1 =
        SyncResult.error ("Failed to download models: " ++ w.unlinkMsg)) := by
  rw [sync_characterization]
  refine ⟨?_, ?_, ?_, ?_⟩
  · intro m hci
    simp [syncResultOf, hc, hne, hci]
  · intro m hci hl
    simp [syncResultOf, hc, hne, hci, hl]
  · intro keys m hci hl hle
    simp [syncResultOf, hc, hne, hci, hl, hle]
  · intro keys hci hl hle hu
    simp [syncResultOf, hc, hne, hci, hl, hle, hu]

/-- Oracle where client construction (authentication) fails and deleting the
temp file fails too. -/
def wAuthFail : World :=
  { wBase with
    clientInit := Except.error "invalid credential",
    unlinkOk := false, unlinkMsg := "busy" }

/-- `wListFail` with the deletion of the temp file also failing. -/
def wListFailNoUnlink : World :=
  { wListFail with unlinkOk := false, unlinkMsg := "busy" }

/-- `wXferFail` with the deletion of the temp file also failing. -/
def wXferFailNoUnlink : World :=
  { wXferFail with unlinkOk := false, unlinkMsg := "busy" }

/-- Witness for the amended C4, instantiating all four conjuncts: an
authentication failure, a listing failure and a transfer failure (each with
the deletion also failing, showing the original error is kept), and the
success-path deletion failure. -/
theorem cleanup_never_masks_prior_error_witness :
    (downloadModelsFromGcs wAuthFail st0).1 =
        SyncResult.error ("Failed to download models: " ++ "invalid credential")
    ∧ (downloadModelsFromGcs wListFailNoUnlink st0).1 =
        SyncResult.error ("Failed to download models: " ++ "bucket not found")
    ∧ (downloadModelsFromGcs wXferFailNoUnlink st0).1 =
        SyncResult.error ("Failed to download models: " ++ "boom")
    ∧ (downloadModelsFromGcs wUnlinkFail st0).1 =
        SyncResult.error ("Failed to download models: " ++ wUnlinkFail.unlinkMsg) :=
  ⟨(cleanup_never_masks_prior_error wAuthFail st0 "CREDS" rfl
      (by decide)).1 "invalid credential" rfl,
   (cleanup_never_masks_prior_error wListFailNoUnlink st0 "CREDS" rfl
      (by decide)).2.1 "bucket not found" rfl rfl,
   (cleanup_never_masks_prior_error wXferFailNoUnlink st0 "CREDS" rfl
      (by decide)).2.2.1 ["a.bin", "bad.bin", "later.bin"] "boom" rfl rfl rfl,
   (cleanup_never_masks_prior_error wUnlinkFail st0 "CREDS" rfl
      (by decide)).2.2.2 ["a.bin"] rfl rfl rfl rfl⟩

/-! ## Claim C1 -/

/-- Claim C1 counterexample: a bucket listing may contain a key beginning
with the path separator (legal in the object store).  `pathlib`'s join then
discards the destination root, so the sync succeeds, reports `/x` as
written, and writes the object at `/x` — while `destination_root/K`
(`/runpod-volume/models/x`) holds nothing. -/
theorem structure_mirroring_fails_on_absolute_key :
    (downloadModelsFromGcs wAbsKey st0).1 =
        SyncResult.success "Downloaded 1 files from talking-head-models"
          ["/x"] "/runpod-volume/models"
    ∧ destJoin "/x" = "/runpod-volume/models/x"
    ∧ (downloadModelsFromGcs wAbsKey st0).2.fs "/runpod-volume/models/x" = none
    ∧ (downloadModelsFromGcs wAbsKey st0).2.fs "/x" = some "QQ" :=
  ⟨rfl, rfl, rfl, rfl⟩

/-- Claim C1 (amended): for a successful sync whose listing contains no key
beginning with the path separator and no two distinct non-placeholder keys
denoting the same local path, every non-placeholder key `K` of the listing
has its object's bytes stored at `destination_root/K` (with the temporary
credential file living outside the mirrored paths), and the success result
lists exactly the local paths of the non-placeholder keys in listing
order. -/
theorem structure_mirroring_amended (w : World) (s : St) (c : String)
    (keys : List String) (msg : String) (fl : List String) (d : String)
    (hc : s.env "GCP_CREDENTIALS" = some c) (hne : c ≠ "")
    (hl : w.listBlobs ((s.env "GCS_BUCKET").getD "talking-head-models") =
        Except.ok keys)
    (habs : ∀ k ∈ keys, startsWithSlash k = false)
    (hinj : ∀ k1 ∈ keys, ∀ k2 ∈ keys, endsWithSlash k1 = false →
        endsWithSlash k2 = false → destJoin k1 = destJoin k2 → k1 = k2)
    (htmp : ∀ k ∈ keys, destJoin k ≠ w.tmpName)
    (hsucc : (downloadModelsFromGcs w s).1 = SyncResult.success msg fl d) :
    (∀ k ∈ keys, endsWithSlash k = false →
       ∃ content,
         w.fetch ((s.env "GCS_BUCKET").getD "talking-head-models") k =
           Except.ok content ∧
         (downloadModelsFromGcs w s).2.fs (destJoin k) = some content)
    ∧ fl = (keys.filter (fun k => !endsWithSlash k)).map destJoin := by
  rw [sync_characterization] at hsucc ⊢
  simp only [syncResultOf, hc, hne, if_false, hl] at hsucc
  cases hci : w.clientInit with
  | error m => rw [hci] at hsucc; exact absurd hsucc (by simp)
  | ok u =>
    rw [hci] at hsucc
    cases hle : loopErr w.fetch
        ((s.env "GCS_BUCKET").getD "talking-head-models") keys with
    | some m => rw [hle] at hsucc; exact absurd hsucc (by simp)
    | none =>
      rw [hle] at hsucc
      cases hu : w.unlinkOk with
      | false => rw [hu] at hsucc; exact absurd hsucc (by simp)
      | true =>
        rw [hu] at hsucc
        simp only [if_true, SyncResult.success.injEq] at hsucc
        obtain ⟨hm, hfl, hd⟩ := hsucc
        have hloc : ∀ k ∈ keys, localPathOf k = destJoin k :=
          fun k hk => localPathOf_eq_destJoin (habs k hk)
        constructor
        · intro k hk hkp
          obtain ⟨content, hcon⟩ := loopErr_none_fetch hle k hk hkp
          refine ⟨content, hcon, ?_⟩
          have hinjL : ∀ k1 ∈ keys, ∀ k2 ∈ keys, endsWithSlash k1 = false →
              endsWithSlash k2 = false →
              localPathOf k1 = localPathOf k2 → k1 = k2 := by
            intro k1 h1 k2 h2 e1 e2 heq
            rw [hloc k1 h1, hloc k2 h2] at heq
            exact hinj k1 h1 k2 h2 e1 e2 heq
          have hlast := lastWrite_loopWrites_eq hle hinjL k hk hkp content hcon
          rw [hloc k hk] at hlast
          simp only [syncFsOf, hc, hne, if_false, hu, if_true,
            syncWritesDone, hci, hl]
          simp [setKey, htmp k hk, applyWrites_apply, hlast]
        · rw [← hfl, loopFiles_of_noerr hle]
          apply List.map_congr_left
          intro k hk
          exact hloc k (List.mem_filter.mp hk).1

/-- Witness for the amended C1: the spec's own scenario — two objects and a
directory placeholder. -/
theorem structure_mirroring_amended_witness :
    (∀ k ∈ ["models/a.bin", "models/sub/", "models/sub/b.bin"],
       endsWithSlash k = false →
       ∃ content,
         wGood.fetch ((st0.env "GCS_BUCKET").getD "talking-head-models") k =
           Except.ok content ∧
         (downloadModelsFromGcs wGood st0).2.fs (destJoin k) = some content)
    ∧ ["/runpod-volume/models/models/a.bin",
       "/runpod-volume/models/models/sub/b.bin"] =
        (["models/a.bin", "models/sub/", "models/sub/b.bin"].filter
          (fun k => !endsWithSlash k)).map destJoin :=
  structure_mirroring_amended wGood st0 "CREDS"
    ["models/a.bin", "models/sub/", "models/sub/b.bin"]
    "Downloaded 2 files from talking-head-models"
    ["/runpod-volume/models/models/a.bin",
     "/runpod-volume/models/models/sub/b.bin"]
    "/runpod-volume/models" rfl (by decide) rfl (by decide) (by decide)
    (by decide) rfl

/-! ## Claim C8 -/

/-- Claim C8: running the sync twice against an unchanged world yields the
same result value both times (in particular the same reported count and
path list) and the same final filesystem contents at every path. -/
theorem resync_idempotent (w : World) (s : St) :
    (downloadModelsFromGcs w (downloadModelsFromGcs w s).2).1 =
        (downloadModelsFromGcs w s).1
    ∧ ∀ p, (downloadModelsFromGcs w (downloadModelsFromGcs w s).2).2.fs p =
        (downloadModelsFromGcs w s).2.fs p := by
  have e1 : syncEnvOf w (s.env "GCP_CREDENTIALS") s.env "GCP_CREDENTIALS" =
      s.env "GCP_CREDENTIALS" := syncEnvOf_reads w _ s.env _ (by decide)
  have e2 : syncEnvOf w (s.env "GCP_CREDENTIALS") s.env "GCS_BUCKET" =
      s.env "GCS_BUCKET" := syncEnvOf_reads w _ s.env _ (by decide)
  rw [sync_characterization w s, sync_characterization]
  constructor
  · dsimp only
    rw [e1, e2]
  · intro p
    dsimp only
    rw [e1, e2, syncFsOf_idem]

/-! ## Claim C10 -/

/-- Claim C10: the handler dispatches to the bucket sync exactly when the
job input's `action` equals `"download_models"`; it then returns the sync's
result unchanged and runs no subprocess; for any other action value the sync
is never invoked: the filesystem and environment are untouched and every new
event is a subprocess invocation. -/
theorem handler_dispatch_spec (job : Job) (w : World) (s : St) :
    ((job.input.getD { action := none }).action = some "download_models" →
       handler job w s =
         (HandlerResult.syncRes (downloadModelsFromGcs w s).1,
          (downloadModelsFromGcs w s).2)
       ∧ ∃ evs, (handler job w s).2.events = s.events ++ evs ∧
           ∀ cmd, Event.subprocess cmd ∉ evs)
    ∧ ((job.input.getD { action := none }).action ≠ some "download_models" →
       (handler job w s).2.fs = s.fs ∧ (handler job w s).2.env = s.env
       ∧ ∃ evs, (handler job w s).2.events = s.events ++ evs ∧
           ∀ e ∈ evs, ∃ cmd, e = Event.subprocess cmd) := by
  constructor
  · intro ha
    have hh : handler job w s =
        (HandlerResult.syncRes (downloadModelsFromGcs w s).1,
         (downloadModelsFromGcs w s).2) := by
      simp [handler, ha]
    refine ⟨hh, ?_⟩
    rw [hh]
    rw [sync_characterization]
    exact ⟨_, rfl, fun cmd => syncEventsOf_no_subprocess w _ _ cmd⟩
  · intro ha
    have hh : handler job w s =
        gpuBranch w s (job.input.getD { action := none }).action := by
      simp [handler, ha]
    rw [hh]
    unfold gpuBranch
    cases hsmi : w.smi with
    | error e =>
      simp only [hsmi]
      refine ⟨trivial, trivial, [Event.subprocess ["nvidia-smi"]], by simp, ?_⟩
      intro ev hev
      simp only [List.mem_singleton] at hev
      subst hev
      exact ⟨_, rfl⟩
    | ok r =>
      simp only [hsmi]
      cases hq : w.gpuQuery with
      | error e =>
        simp only [hq]
        refine ⟨trivial, trivial,
          [Event.subprocess ["nvidia-smi"], Event.subprocess gpuQueryCmd],
          by simp, ?_⟩
        intro ev hev
        simp only [List.mem_cons, List.not_mem_nil, or_false] at hev
        rcases hev with rfl | rfl
        · exact ⟨_, rfl⟩
        · exact ⟨_, rfl⟩
      | ok q =>
        simp only [hq]
        refine ⟨trivial, trivial,
          [Event.subprocess ["nvidia-smi"], Event.subprocess gpuQueryCmd,
           Event.subprocess ["nvcc", "--version"]],
          by simp, ?_⟩
        intro ev hev
        simp only [List.mem_cons, List.not_mem_nil, or_false] at hev
        rcases hev with rfl | rfl | rfl
        · exact ⟨_, rfl⟩
        · exact ⟨_, rfl⟩
        · exact ⟨_, rfl⟩

/-- Witness for C10: the download action returns the sync result unchanged;
any other job leaves filesystem untouched. -/
theorem handler_dispatch_spec_witness :
    handler jobDl wBase st0 =
      (HandlerResult.syncRes (downloadModelsFromGcs wBase st0).1,
       (downloadModelsFromGcs wBase st0).2)
    ∧ (handler jobGpu wBase st0).2.fs = st0.fs :=
  ⟨((handler_dispatch_spec jobDl wBase st0).1 rfl).1,
   ((handler_dispatch_spec jobGpu wBase st0).2 (by decide)).1⟩
